import Mathlib

/-!
Shallow embedding of `src/project.py` (price-list analyzer).

The program loads CSV price lists, normalizes heterogeneous column names
into records `[filename, name, price, weight, unit_price]`, and answers
case-insensitive regex searches over the record names, sorted ascending
by unit price.

Modelling conventions:
* Python floats are modelled as rationals (`ℚ`).  All numeric texts in
  the analyzed inputs denote exact decimal values, so no binary-float
  rounding artifact is relevant to the claims settled here.
* `round(x, 2)` is modelled as round-half-to-even at two decimal places
  on `ℚ` (Python's `round` uses banker's rounding; no claim exercises a
  representation-boundary case).
* A CSV row, as produced by `csv.DictReader`, is a label→value mapping
  in header order; we model it as an association list
  `List (String × String)`.  Extra fields of a data line (beyond the
  header) go to `DictReader`'s `None` rest-key; the rest-key entry is
  only reachable by `_extract_value` when no real header label matched
  earlier, which does not occur for the inputs analyzed here, so the
  model truncates extras (see `read_rows`).
* `re.search(pat, s, re.IGNORECASE)` for a metacharacter-free pattern
  `pat` is case-insensitive substring search; `_extract_value`'s three
  patterns are alternations of Cyrillic literals, modelled by matcher
  functions over column labels.  `search_items` is parametrized by the
  regex collaborator so that both valid literal patterns and
  syntactically invalid patterns (which raise `re.error`) can be
  instantiated.
* Exceptions that escape a function are modelled with `Except`;
  exceptions caught inside (the `except (TypeError, ValueError)` in
  `_process_row`, which rejects the row with a diagnostic) yield
  `Except.ok none`.
-/

namespace PriceList

/-- Lowercasing of ASCII `A`–`Z` and Cyrillic `А`–`Я`/`Ё`, modelling
`str.lower()` on the alphabets occurring in this program. -/
def ruLowerChar (c : Char) : Char :=
  if 'A' ≤ c ∧ c ≤ 'Z' then Char.ofNat (c.toNat + 32)
  else if 'А' ≤ c ∧ c ≤ 'Я' then Char.ofNat (c.toNat + 32)
  else if c = 'Ё' then 'ё'
  else c

/-- `s.lower()` for the alphabets used by the program. -/
def ruLower (s : String) : String := ⟨s.data.map ruLowerChar⟩

/-- `needle` occurs as a contiguous substring of `hay`. -/
def containsSub (hay needle : List Char) : Bool :=
  match hay with
  | [] => needle.isEmpty
  | c :: t => needle.isPrefixOf (c :: t) || containsSub t needle

/-- Python `s.strip()`: drop whitespace from both ends. -/
def pyStrip (s : String) : String :=
  ⟨((s.data.dropWhile Char.isWhitespace).reverse.dropWhile Char.isWhitespace).reverse⟩

/-- `s.replace(',', '.')`: every comma becomes a dot. -/
def commaToDot (s : String) : String :=
  ⟨s.data.map (fun c => if c = ',' then '.' else c)⟩

/-- Numeric value of a digit string (most significant first). -/
def digitsToNat (ds : List Char) : ℕ :=
  ds.foldl (fun a c => 10 * a + (c.toNat - 48)) 0

/-- Mantissa of a Python float literal: digits with an optional decimal
point, at least one digit overall; returns the value and the unconsumed
rest. -/
def parseMantissa (cs : List Char) : Option (ℚ × List Char) :=
  let ip := cs.takeWhile Char.isDigit
  let r1 := cs.dropWhile Char.isDigit
  match r1 with
  | '.' :: r2 =>
    let fp := r2.takeWhile Char.isDigit
    let r3 := r2.dropWhile Char.isDigit
    if ip.isEmpty && fp.isEmpty then none
    else some ((digitsToNat ip : ℚ) + (digitsToNat fp : ℚ) / (10 : ℚ) ^ fp.length, r3)
  | _ => if ip.isEmpty then none else some ((digitsToNat ip : ℚ), r1)

/-- Optional exponent part (`e`/`E`, optional sign, digits); the whole
rest of the input must be consumed by it. -/
def parseExponent (cs : List Char) : Option ℤ :=
  match cs with
  | [] => some 0
  | e :: r =>
    if e == 'e' || e == 'E' then
      let sr : ℤ × List Char :=
        match r with
        | '+' :: t => (1, t)
        | '-' :: t => (-1, t)
        | t => (1, t)
      let ds := sr.2.takeWhile Char.isDigit
      let rest := sr.2.dropWhile Char.isDigit
      if ds.isEmpty || !rest.isEmpty then none
      else some (sr.1 * (digitsToNat ds : ℤ))
    else none

/-- Scale by a signed power of ten. -/
def pow10 (e : ℤ) (q : ℚ) : ℚ :=
  if 0 ≤ e then q * (10 : ℚ) ^ e.toNat else q / (10 : ℚ) ^ (-e).toNat

/-- Python's `float(s)`: optional surrounding whitespace, optional sign,
decimal mantissa, optional exponent.  `none` models `ValueError`.
(`inf`/`nan` and underscore separators are not modelled; no claim
depends on them.) -/
def pyFloat (s : String) : Option ℚ :=
  let cs := (pyStrip s).data
  let sc : ℚ × List Char :=
    match cs with
    | '+' :: t => (1, t)
    | '-' :: t => (-1, t)
    | t => (1, t)
  match parseMantissa sc.2 with
  | none => none
  | some (m, rest) =>
    match parseExponent rest with
    | none => none
    | some e => some (sc.1 * pow10 e m)

/-- Floor of a rational (denominator is positive). -/
def qfloor (x : ℚ) : ℤ := x.num.fdiv x.den

/-- Round-half-to-even to the nearest integer. -/
def roundHalfEven (x : ℚ) : ℤ :=
  let n := qfloor x
  let r := x - (n : ℚ)
  if r < 1 / 2 then n
  else if 1 / 2 < r then n + 1
  else if 2 ∣ n then n else n + 1

/-- Python's `round(x, 2)` on the exact rational value. -/
def round2 (x : ℚ) : ℚ := (roundHalfEven (100 * x) : ℚ) / 100

/-- One normalized catalog entry, the Python list
`[filename, product_name, price, weight, round(price / weight, 2)]`. -/
structure Record where
  file : String
  name : String
  price : ℚ
  weight : ℚ
  unit_price : ℚ
deriving DecidableEq, Repr

/-- Exception escaping `_process_row` (division by a zero weight is not
in the `except (TypeError, ValueError)` clause). -/
inductive PyErr where
  | zeroDivision
deriving DecidableEq, Repr

/-- `re.error` raised by `re.search` on a syntactically invalid pattern
(Python 3.13 names it `PatternError`). -/
inductive RegexErr where
  | patternError
deriving DecidableEq, Repr

/-- The label matches the pattern when one of the alternation's literal
words occurs in it case-insensitively (`re.search(pattern, label,
re.IGNORECASE)` for an alternation of lowercase literals). -/
def matches_any (words : List String) (label : String) : Bool :=
  words.any (fun w => containsSub (ruLower label).data w.data)

/-- Column-label matcher for `r'(название|продукт|товар|наименование)'`. -/
def name_matcher : String → Bool :=
  matches_any ["название", "продукт", "товар", "наименование"]

/-- Column-label matcher for `r'(цена|розница)'`. -/
def price_matcher : String → Bool :=
  matches_any ["цена", "розница"]

/-- Column-label matcher for `r'(фасовка|масса|вес)'`. -/
def weight_matcher : String → Bool :=
  matches_any ["фасовка", "масса", "вес"]

/-- `PriceMachine._extract_value`: the stripped value of the first
column whose label matches; `""` when no label matches. -/
def extract_value (row : List (String × String)) (m : String → Bool) : String :=
  match row.find? (fun kv => m kv.1) with
  | some kv => pyStrip kv.2
  | none => ""

/-- `PriceMachine._process_row`.  `Except.ok none`: the row was rejected
by the `except (TypeError, ValueError)` handler (diagnostic printed,
processing continues).  `Except.ok (some r)`: `r` was appended to
`self.data`.  `Except.error .zeroDivision`: `price / weight` raised
`ZeroDivisionError`, which the handler does not catch, so it escapes to
the caller. -/
def process_row (filename : String) (row : List (String × String)) :
    Except PyErr (Option Record) :=
  let product_name := extract_value row name_matcher
  match pyFloat (commaToDot (extract_value row price_matcher)) with
  | none => .ok none
  | some price =>
    match pyFloat (commaToDot (extract_value row weight_matcher)) with
    | none => .ok none
    | some weight =>
      if weight = 0 then .error .zeroDivision
      else .ok (some ⟨filename, product_name, price, weight, round2 (price / weight)⟩)

/-- Splitting a line at commas, as the `csv` module does for the
quote-free lines analyzed here. -/
def splitComma : List Char → List (List Char)
  | [] => [[]]
  | c :: rest =>
    if c = ',' then [] :: splitComma rest
    else
      match splitComma rest with
      | [] => [[c]]
      | g :: gs => (c :: g) :: gs

/-- Fields of one CSV line. -/
def parse_line (line : String) : List String :=
  (splitComma line.data).map (fun g => ⟨g⟩)

/-- `csv.DictReader`: the first line provides the column labels, each
further line becomes a label→value mapping in header order.  Fields
beyond the header go to the unreachable `None` rest-key (see the module
docstring) and are truncated here. -/
def read_rows (lines : List String) : List (List (String × String)) :=
  match lines with
  | [] => []
  | header :: rest =>
    let hs := parse_line header
    rest.map (fun l => hs.zip (parse_line l))

/-- `PriceMachine._load_file`, relative to an accumulated `self.data`:
feeds every data row of the file to `_process_row`; an uncaught
exception from a row aborts the whole load.  (The `except (IOError,
csv.Error)` around the file applies to unreadable files, which are not
modelled: all files given to the model are readable tables.) -/
def load_file (filepath : String) (lines : List String) (data : List Record) :
    Except PyErr (List Record) :=
  (read_rows lines).foldlM
    (fun acc row => do
      match ← process_row filepath row with
      | some r => pure (acc ++ [r])
      | none => pure acc)
    data

/-- The filename filter of `load_prices`:
`filename.endswith('.csv') and 'price' in filename.lower()`. -/
def is_price_csv (filename : String) : Bool :=
  ".csv".data.isSuffixOf filename.data &&
    containsSub (ruLower filename).data "price".data

/-- `PriceMachine.load_prices` on a directory snapshot (filename paired
with the file's lines); starts from the empty list (`self.data = []`)
and accumulates the eligible files in listing order, with
`os.path.join` modelled by `directory ++ "/" ++ filename`. -/
def load_prices (directory : String) (files : List (String × List String)) :
    Except PyErr (List Record) :=
  (files.filter (fun f => is_price_csv f.1)).foldlM
    (fun acc f => load_file (directory ++ "/" ++ f.1) f.2 acc)
    []

/-- The mutable state of a `PriceMachine` instance: `self.data`. -/
structure PriceMachine where
  data : List Record
deriving DecidableEq, Repr

/-- `load_prices` as a state transformer: the result never depends on
the prior `self.data`, which is overwritten by `self.data = []`. -/
def load_prices_st (pm : PriceMachine) (directory : String)
    (files : List (String × List String)) : Except PyErr PriceMachine :=
  match pm with
  | _ => (load_prices directory files).map PriceMachine.mk

/-- The filtering list comprehension of `search_items`: applies the
regex collaborator to each element in order; its first exception aborts
the comprehension. -/
def filterE (p : α → Except ε Bool) : List α → Except ε (List α)
  | [] => .ok []
  | a :: as => do
    let b ← p a
    let rest ← filterE p as
    pure (if b then a :: rest else rest)

/-- The sort key of `search_items`: `sorted(results, key=lambda x: x[4])`
compares unit prices. -/
def rec_le (a b : Record) : Bool := decide (a.unit_price ≤ b.unit_price)

/-- `PriceMachine.search_items`, parametrized by the regex collaborator
`reS` (modelling `re.search(query, name, re.IGNORECASE)` coerced to
`Bool`): filter the rows whose name matches, then stable-sort ascending
by unit price (Python's `sorted` is stable; `List.mergeSort` models
it). -/
def search_items (reS : String → String → Except RegexErr Bool)
    (data : List Record) (query : String) : Except RegexErr (List Record) :=
  (filterE (fun row => reS query row.name) data).map
    (fun results => results.mergeSort rec_le)

/-- `search_items` as a state transformer: the method reads `self.data`
and returns a fresh list; it never writes the state. -/
def search_items_st (reS : String → String → Except RegexErr Bool)
    (pm : PriceMachine) (query : String) :
    Except RegexErr (List Record) × PriceMachine :=
  (search_items reS pm.data query, pm)

/-- `re.search(pattern, s, re.IGNORECASE)` for a syntactically valid,
metacharacter-free pattern: case-insensitive substring test. -/
def re_search_lit (pattern s : String) : Except RegexErr Bool :=
  .ok (containsSub (ruLower s).data (ruLower pattern).data)

/-- `re.search` with a syntactically invalid pattern such as `"("`:
raises `re.error` (`PatternError`) whenever it is actually invoked. -/
def re_search_invalid : String → String → Except RegexErr Bool :=
  fun _ _ => .error .patternError

/-- The loop-exit test of `PriceMachine.main`:
`query.lower() in ['exit', 'учше']`. -/
def should_exit (query : String) : Bool :=
  (["exit", "учше"] : List String).contains (ruLower query)

/-- The interactive loop of `PriceMachine.main` over a finite queue of
inputs: returns the queries that were actually searched (in order) and
whether the loop terminated with the farewell message. -/
def run_queries : List String → List String × Bool
  | [] => ([], false)
  | q :: rest =>
    if should_exit q then ([], true)
    else
      match run_queries rest with
      | (s, e) => (q :: s, e)

/-- The spec's example directory: `price1.csv` and `price2.csv` with the
exact header and data lines the spec quotes. -/
def dir_ex : List (String × List String) :=
  [("price1.csv", ["название,цена,вес", "Масло,100,2"]),
   ("price2.csv", ["товар,розница,фасовка", "Молоко,60,1,5"])]

/-- The record the program builds from `price1.csv`'s data row. -/
def rec_maslo : Record := ⟨"d/price1.csv", "Масло", 100, 2, 50⟩

/-- The record the program builds from `price2.csv`'s data row: the bare
`1,5` in the CSV line is split by the comma delimiter, so the weight
field reads `1` (the trailing `5` lands in `DictReader`'s rest-key). -/
def rec_moloko : Record := ⟨"d/price2.csv", "Молоко", 60, 1, 60⟩

/-! ## Helper lemmas -/

theorem containsSub_nil (hay : List Char) : containsSub hay [] = true := by
  cases hay <;> simp [containsSub, List.isPrefixOf]

theorem rec_le_trans (a b c : Record) : rec_le a b → rec_le b c → rec_le a c := by
  simp only [rec_le, decide_eq_true_eq]
  exact le_trans

theorem rec_le_total (a b : Record) : rec_le a b || rec_le b a := by
  simpa [rec_le] using le_total a.unit_price b.unit_price

theorem filterE_ok {ε : Type} (p : α → Bool) :
    ∀ l : List α,
      filterE (ε := ε) (fun a => Except.ok (p a)) l = .ok (l.filter p) := by
  intro l
  induction l with
  | nil => rfl
  | cons a as ih =>
    simp only [filterE, ih, List.filter_cons, bind, Except.bind, pure, Except.pure]

theorem mergeSort_sorted_unit (l : List Record) :
    (l.mergeSort rec_le).Pairwise (fun a b => a.unit_price ≤ b.unit_price) :=
  (List.sorted_mergeSort rec_le_trans rec_le_total l).imp
    (fun h => of_decide_eq_true h)

theorem filter_key_mergeSort (l : List Record) (v : ℚ) :
    (l.mergeSort rec_le).filter (fun r => decide (r.unit_price = v))
      = l.filter (fun r => decide (r.unit_price = v)) := by
  have hB : (l.filter (fun r => decide (r.unit_price = v))).Pairwise
      (fun a b => rec_le a b) := by
    apply List.pairwise_of_forall_mem_list
    intro a ha b hb
    have ha' := (List.mem_filter.mp ha).2
    have hb' := (List.mem_filter.mp hb).2
    simp only [decide_eq_true_eq] at ha' hb'
    simp [rec_le, ha', hb']
  have hsub : List.Sublist (l.filter (fun r => decide (r.unit_price = v)))
      (l.mergeSort rec_le) :=
    List.sublist_mergeSort rec_le_trans rec_le_total hB (List.filter_sublist l)
  have hself : (l.filter (fun r => decide (r.unit_price = v))).filter
      (fun r => decide (r.unit_price = v))
      = l.filter (fun r => decide (r.unit_price = v)) :=
    List.filter_eq_self.mpr (fun a ha => (List.mem_filter.mp ha).2)
  have hsub2 := hsub.filter (fun r => decide (r.unit_price = v))
  rw [hself] at hsub2
  have hlen : ((l.mergeSort rec_le).filter (fun r => decide (r.unit_price = v))).length
      = (l.filter (fun r => decide (r.unit_price = v))).length :=
    ((List.mergeSort_perm l rec_le).filter _).length_eq
  exact (hsub2.eq_of_length hlen.symm).symm

theorem load_dir_ex_eval : load_prices "d" dir_ex = .ok [rec_maslo, rec_moloko] := by
  simp [load_prices, dir_ex, is_price_csv, load_file, read_rows, parse_line, splitComma,
    process_row, extract_value, name_matcher, price_matcher, weight_matcher,
    matches_any, containsSub, ruLower, ruLowerChar, pyStrip, commaToDot,
    pyFloat, parseMantissa, parseExponent, pow10, digitsToNat,
    rec_maslo, rec_moloko, List.foldlM, Except.bind, Except.map, Except.pure,
    bind, pure]
  norm_num [round2, roundHalfEven, qfloor]

theorem search_dir_ex_eval :
    search_items re_search_lit [rec_maslo, rec_moloko] "о"
      = .ok [rec_maslo, rec_moloko] := by
  have h : filterE (fun row => re_search_lit "о" row.name) [rec_maslo, rec_moloko]
      = .ok [rec_maslo, rec_moloko] := by
    simp [filterE, re_search_lit, rec_maslo, rec_moloko, containsSub,
      ruLower, ruLowerChar, bind, Except.bind, pure, Except.pure]
  simp only [search_items, h, Except.map]
  exact congrArg Except.ok
    (List.mergeSort_of_sorted (by norm_num [rec_le, rec_maslo, rec_moloko]))

/-- Claim C1 (counterexample): loading the spec's two example files does
not produce the record the claim announces for `price2.csv`.  The data
line `Молоко,60,1,5` is comma-delimited, so the weight column receives
`1` (not `1,5`): the Молоко record has weight 1 ≠ 3/2 and unit price
60 ≠ 40, and `search("о")` returns Масло (unit price 50) first, not
Молоко. -/
theorem claim_c1_counterexample :
    load_prices "d" dir_ex = .ok [rec_maslo, rec_moloko] ∧
    rec_moloko.weight ≠ 3 / 2 ∧ rec_moloko.unit_price ≠ 40 ∧
    search_items re_search_lit [rec_maslo, rec_moloko] "о"
      = .ok [rec_maslo, rec_moloko] ∧
    rec_maslo.name = "Масло" ∧ rec_moloko.name = "Молоко" ∧
    rec_maslo.unit_price < rec_moloko.unit_price :=
  ⟨load_dir_ex_eval, by norm_num [rec_moloko], by norm_num [rec_moloko],
    search_dir_ex_eval, rfl, rfl, by norm_num [rec_maslo, rec_moloko]⟩

/-- Claim C1 (amended): loading the two example files produces
(Масло, price 100, weight 2, unit price 50.00) and (Молоко, price 60,
weight 1, unit price 60.00) — the unquoted `1,5` is split at the comma
delimiter, so the weight field reads `1` — and `search("о")` returns
Масло (50.00) strictly before Молоко (60.00). -/
theorem claim_c1_amended :
    load_prices "d" dir_ex
      = .ok [⟨"d/price1.csv", "Масло", 100, 2, 50⟩,
             ⟨"d/price2.csv", "Молоко", 60, 1, 60⟩] ∧
    search_items re_search_lit
        [⟨"d/price1.csv", "Масло", 100, 2, 50⟩,
         ⟨"d/price2.csv", "Молоко", 60, 1, 60⟩] "о"
      = .ok [⟨"d/price1.csv", "Масло", 100, 2, 50⟩,
             ⟨"d/price2.csv", "Молоко", 60, 1, 60⟩] :=
  ⟨load_dir_ex_eval, search_dir_ex_eval⟩

/-- Claim C2 (code evaluation at the failing input): `_process_row` has
no `weight > 0` guard.  A row whose weight field parses to `0` makes
`price / weight` raise `ZeroDivisionError`, which the
`except (TypeError, ValueError)` clause does not catch, so the whole
load aborts instead of rejecting the row; and a row whose weight parses
to `-2` is not rejected at all — a record with negative weight and
negative unit price is appended. -/
theorem claim_c2_code_eval :
    process_row "d/price0.csv" [("название", "Хлеб"), ("цена", "10"), ("вес", "0")]
      = .error .zeroDivision ∧
    load_prices "d" [("price0.csv", ["название,цена,вес", "Хлеб,10,0"])]
      = .error .zeroDivision ∧
    process_row "d/price0.csv" [("название", "Хлеб"), ("цена", "10"), ("вес", "-2")]
      = .ok (some ⟨"d/price0.csv", "Хлеб", 10, -2, -5⟩) := by
  refine ⟨?_, ?_, ?_⟩
  · simp [process_row, extract_value, name_matcher, price_matcher, weight_matcher,
      matches_any, containsSub, ruLower, ruLowerChar, pyStrip, commaToDot,
      pyFloat, parseMantissa, parseExponent, pow10, digitsToNat]
  · simp [load_prices, is_price_csv, load_file, read_rows, parse_line, splitComma,
      process_row, extract_value, name_matcher, price_matcher, weight_matcher,
      matches_any, containsSub, ruLower, ruLowerChar, pyStrip, commaToDot,
      pyFloat, parseMantissa, parseExponent, pow10, digitsToNat,
      List.foldlM, Except.bind, Except.map, Except.pure, bind, pure]
  · simp [process_row, extract_value, name_matcher, price_matcher, weight_matcher,
      matches_any, containsSub, ruLower, ruLowerChar, pyStrip, commaToDot,
      pyFloat, parseMantissa, parseExponent, pow10, digitsToNat]
    norm_num [round2, roundHalfEven, qfloor]

/-- Claim C3 (counterexample): a row with no recognizable name column at
all still yields a record — with empty name — provided price and weight
parse; `_process_row` never validates the extracted name. -/
theorem claim_c3_counterexample :
    process_row "f.csv" [("цена", "10"), ("вес", "2")]
      = .ok (some ⟨"f.csv", "", 10, 2, 5⟩) := by
  simp [process_row, extract_value, name_matcher, price_matcher, weight_matcher,
    matches_any, containsSub, ruLower, ruLowerChar, pyStrip, commaToDot,
    pyFloat, parseMantissa, parseExponent, pow10, digitsToNat]
  norm_num [round2, roundHalfEven, qfloor]

/-- Claim C3 (amended): normalization does not reject rows whose
extracted product name is empty.  Whenever the price and weight texts
parse and the weight is non-zero, a record is appended whose name is the
empty string. -/
theorem claim_c3_amended (f : String) (row : List (String × String)) (p w : ℚ)
    (hn : extract_value row name_matcher = "")
    (hp : pyFloat (commaToDot (extract_value row price_matcher)) = some p)
    (hw : pyFloat (commaToDot (extract_value row weight_matcher)) = some w)
    (h0 : w ≠ 0) :
    process_row f row = .ok (some ⟨f, "", p, w, round2 (p / w)⟩) := by
  simp [process_row, hn, hp, hw, h0]

/-- Witness for the amended claim C3, at a row whose name column holds
only the empty string. -/
theorem claim_c3_witness :
    process_row "f.csv" [("название", ""), ("цена", "10"), ("вес", "4")]
      = .ok (some ⟨"f.csv", "", 10, 4, round2 (10 / 4)⟩) :=
  claim_c3_amended "f.csv" [("название", ""), ("цена", "10"), ("вес", "4")] 10 4
    (by simp [extract_value, name_matcher, matches_any, containsSub,
      ruLower, ruLowerChar, pyStrip])
    (by simp [extract_value, price_matcher, matches_any, containsSub,
      ruLower, ruLowerChar, pyStrip, commaToDot, pyFloat, parseMantissa,
      parseExponent, pow10, digitsToNat])
    (by simp [extract_value, weight_matcher, matches_any, containsSub,
      ruLower, ruLowerChar, pyStrip, commaToDot, pyFloat, parseMantissa,
      parseExponent, pow10, digitsToNat])
    (by norm_num)

/-- Claim C4 (counterexample): on an empty catalog the comprehension in
`search_items` never invokes `re.search`, so a syntactically invalid
pattern such as `"("` raises nothing — the search silently returns the
empty result list instead of failing with `PatternError`. -/
theorem claim_c4_counterexample :
    search_items re_search_invalid ([] : List Record) "(" = .ok [] := by
  simp [search_items, filterE, Except.map, List.mergeSort_nil]

/-- Claim C4 (amended): when the catalog is non-empty, a search with a
syntactically invalid pattern fails with `PatternError` surfaced to the
caller (raised at the first record tested, not swallowed and not turned
into a result list), and the catalog state is unchanged by any search;
only on an empty catalog does the invalid pattern go unnoticed and the
search return `[]`. -/
theorem claim_c4_amended (d : Record) (data : List Record) (q : String)
    (pm : PriceMachine) :
    search_items re_search_invalid (d :: data) q = .error .patternError ∧
    (search_items_st re_search_invalid pm q).2 = pm :=
  ⟨rfl, rfl⟩

/-- Claim C5: for every row whose name, price and weight columns are
recognized and whose price and weight texts parse numerically (after
the comma→dot substitution), with strictly positive weight,
`_process_row` appends a record whose unit price is
`round(price / weight, 2)`. -/
theorem claim_c5_unit_price (f : String) (row : List (String × String))
    (n : String) (p w : ℚ)
    (hn : extract_value row name_matcher = n)
    (hp : pyFloat (commaToDot (extract_value row price_matcher)) = some p)
    (hw : pyFloat (commaToDot (extract_value row weight_matcher)) = some w)
    (hpos : 0 < w) :
    process_row f row = .ok (some ⟨f, n, p, w, round2 (p / w)⟩) := by
  simp [process_row, hn, hp, hw, ne_of_gt hpos]

/-- Witness for claim C5, at a row with localized labels and a comma
decimal separator in the price. -/
theorem claim_c5_witness :
    (0 : ℚ) < 3 ∧
    process_row "w.csv" [("товар", "Сыр"), ("цена", "7,5"), ("вес", "3")]
      = .ok (some ⟨"w.csv", "Сыр", 15 / 2, 3, round2 (15 / 2 / 3)⟩) :=
  ⟨by norm_num,
    claim_c5_unit_price "w.csv" [("товар", "Сыр"), ("цена", "7,5"), ("вес", "3")]
      "Сыр" (15 / 2) 3
      (by simp [extract_value, name_matcher, matches_any, containsSub,
        ruLower, ruLowerChar, pyStrip])
      (by simp [extract_value, price_matcher, matches_any, containsSub,
        ruLower, ruLowerChar, pyStrip, commaToDot, pyFloat, parseMantissa,
        parseExponent, pow10, digitsToNat]; norm_num)
      (by simp [extract_value, weight_matcher, matches_any, containsSub,
        ruLower, ruLowerChar, pyStrip, commaToDot, pyFloat, parseMantissa,
        parseExponent, pow10, digitsToNat])
      (by norm_num)⟩

/-- Claim C6: for every catalog state and every valid pattern (modelled
by an arbitrary boolean matcher applied by `re.search` without error),
the result of `search_items` is sorted non-decreasing by unit price, and
for each unit-price value the matching records appear in exactly the
catalog (load) order — Python's `sorted` is stable. -/
theorem claim_c6_sorted_stable (m : String → String → Bool)
    (data : List Record) (q : String) (v : ℚ) :
    ∃ res, search_items (fun pat s => .ok (m pat s)) data q = .ok res ∧
      res.Pairwise (fun a b => a.unit_price ≤ b.unit_price) ∧
      res.filter (fun r => decide (r.unit_price = v))
        = (data.filter (fun r => m q r.name)).filter
            (fun r => decide (r.unit_price = v)) := by
  refine ⟨(data.filter (fun r => m q r.name)).mergeSort rec_le, ?_,
    mergeSort_sorted_unit _, filter_key_mergeSort _ v⟩
  simp [search_items, filterE_ok (fun r : Record => m q r.name) data, Except.map]

/-- Claim C7: `load_prices` starts with `self.data = []`, so its result
is independent of the prior state; loading the same directory snapshot
again reproduces exactly the same record list (idempotence on static
input). -/
theorem claim_c7_load_idempotent (pm pm' : PriceMachine) (directory : String)
    (files : List (String × List String))
    (h : load_prices_st pm directory files = .ok pm') :
    load_prices_st pm' directory files = .ok pm' := h

/-- Witness for claim C7: after loading the example directory into a
fresh machine, loading it again from the resulting state returns the
same two records. -/
theorem claim_c7_witness :
    load_prices_st ⟨[rec_maslo, rec_moloko]⟩ "d" dir_ex
      = .ok ⟨[rec_maslo, rec_moloko]⟩ :=
  claim_c7_load_idempotent ⟨[]⟩ ⟨[rec_maslo, rec_moloko]⟩ "d" dir_ex
    (by simp [load_prices_st, load_dir_ex_eval, Except.map])

/-- Claim C8: searching with the empty pattern returns every record of
the catalog (the empty pattern matches every name), ordered ascending by
unit price. -/
theorem claim_c8_empty_query (data : List Record) :
    ∃ res, search_items re_search_lit data "" = .ok res ∧
      res.Perm data ∧
      res.Pairwise (fun a b => a.unit_price ≤ b.unit_price) := by
  refine ⟨data.mergeSort rec_le, ?_, List.mergeSort_perm data rec_le,
    mergeSort_sorted_unit data⟩
  have h1 : (fun row : Record => re_search_lit "" row.name)
      = fun row : Record => Except.ok ((fun _ : Record => true) row) := by
    funext row
    show Except.ok (containsSub (ruLower row.name).data (ruLower "").data)
      = Except.ok true
    rw [show (ruLower "").data = [] from rfl, containsSub_nil]
  simp [search_items, h1, filterE_ok (fun _ : Record => true) data,
    List.filter_true, Except.map]

/-- Claim C9: `search_items` never writes `self.data`: the state after a
search equals the state before it, and the result is a fresh filter of
the current records. -/
theorem claim_c9_search_frame (reS : String → String → Except RegexErr Bool)
    (pm : PriceMachine) (q : String) :
    (search_items_st reS pm q).2 = pm ∧
    (search_items_st reS pm q).1 = search_items reS pm.data q :=
  ⟨rfl, rfl⟩

/-- Claim C10: the interactive loop of `main` stops exactly at the first
query whose lowercasing is `"exit"` or `"учше"` (any case variant, e.g.
`"EXIT"`), printing the farewell; every other input is searched and the
loop continues. -/
theorem claim_c10_exit_condition :
    (∀ qs : List String,
        (run_queries qs).1 = qs.takeWhile (fun q => !should_exit q) ∧
        (run_queries qs).2 = qs.any should_exit) ∧
    (∀ q : String,
        should_exit q = true ↔ ruLower q = "exit" ∨ ruLower q = "учше") ∧
    should_exit "EXIT" = true ∧ should_exit "Учше" = true ∧
    should_exit "молоко" = false := by
  refine ⟨?_, ?_, by decide, by decide, by decide⟩
  · intro qs
    induction qs with
    | nil => simp [run_queries]
    | cons q rest ih =>
      by_cases h : should_exit q = true
      · simp [run_queries, h]
      · simp only [Bool.not_eq_true] at h
        simp [run_queries, h, ih.1, ih.2]
  · intro q
    simp [should_exit, List.contains, Or.comm]

end PriceList
